import Mathlib

/-!
Verification of the client-side data aggregation and view-state module of the
Smart Home Energy Monitor dashboard (src/src/Dashboard.jsx).

Modelling conventions:
* Timestamps are integers (milliseconds since the Unix epoch); the current
  time `now` is an explicit parameter, matching the spec requirement that
  implementations inject the clock.
* `consumption_kwh` and other numeric payload fields are rationals (exact
  arithmetic).
* A JS plain object used as a string-keyed accumulator is modelled as an
  association list in insertion order; `Object.keys` is its list of keys.
* ISO-8601 minute-bucket labels are modelled by the minute-truncated
  timestamp itself: lexicographic order on the ISO strings coincides with
  numeric order on the instants.
* `Array.prototype.sort` with a numeric comparator is a stable sort ordered
  by the comparator; it is modelled with `List.insertionSort`.
-/

/-- One telemetry sample, as received in `recentReadings`. -/
structure Reading where
  device_id : String
  location : String
  timestamp : Int
  consumption_kwh : ℚ
  status : String
  anomaly_detected : Bool
deriving DecidableEq, Repr

/-- One pre-aggregated day, as received in `dailySummaries`. -/
structure DailySummary where
  date : String
  total_consumption_kwh : ℚ
  total_cost_usd : ℚ
  peak_device_daily : Option String
  peak_device_consumption_daily : Option ℚ
deriving DecidableEq, Repr

/-- One flagged irregular reading, as received in `anomalies`. -/
structure Anomaly where
  timestamp : Int
  device_id : String
  anomaly_message : String
deriving DecidableEq, Repr

/-- Output shape of the aggregators: parallel `labels`/`values` arrays.
Time-series labels are minute instants (ms since epoch). -/
structure TimeSeries where
  labels : List Int
  values : List ℚ
deriving DecidableEq, Repr

/-- Output shape of the device ranking: parallel `labels`/`values` arrays. -/
structure DeviceSeries where
  labels : List String
  values : List ℚ
deriving DecidableEq, Repr

/-- `consumptionByMinute[key] = (consumptionByMinute[key] || 0) + v`:
add `v` to the entry of `k`, appending a fresh entry (JS object insertion
order) when `k` is absent. -/
def bumpQ {κ : Type} [DecidableEq κ] (m : List (κ × ℚ)) (k : κ) (v : ℚ) :
    List (κ × ℚ) :=
  match m with
  | [] => [(k, v)]
  | (k', v') :: rest =>
      if k' = k then (k', v' + v) :: rest else (k', v') :: bumpQ rest k v

/-- `m[k] || 0`: value stored at `k`, `0` when absent. -/
def lookupQ {κ : Type} [DecidableEq κ] (m : List (κ × ℚ)) (k : κ) : ℚ :=
  match m with
  | [] => 0
  | (k', v') :: rest => if k' = k then v' else lookupQ rest k

/-- Truncation of an instant to whole-minute granularity, as performed by
`new Date(y, mo, d, h, min).toISOString()` on the components of the reading
time (floor to the enclosing minute; time-zone offsets are whole minutes, so
local-time truncation equals UTC truncation). -/
def truncMinute (t : Int) : Int := 60000 * (t / 60000)

/-- The `readings.forEach(...)` accumulation loop shared by both
aggregators, threading the accumulator `m` through the readings in order:
each reading strictly newer than `cutoff` adds its consumption to the
entry of `key r`. -/
def buildMapFrom {κ : Type} [DecidableEq κ] (key : Reading → κ) (cutoff : Int)
    (m : List (κ × ℚ)) : List Reading → List (κ × ℚ)
  | [] => m
  | r :: rest =>
      buildMapFrom key cutoff
        (if cutoff < r.timestamp then bumpQ m (key r) r.consumption_kwh else m)
        rest

/-- The accumulation loop started from the empty object. -/
def buildMap {κ : Type} [DecidableEq κ] (key : Reading → κ)
    (readings : List Reading) (cutoff : Int) : List (κ × ℚ) :=
  buildMapFrom key cutoff [] readings

/-- The `consumptionByMinute` object: readings strictly newer than `cutoff`
accumulated under their minute-truncated timestamp. -/
def minuteMap (readings : List Reading) (cutoff : Int) : List (Int × ℚ) :=
  buildMap (fun r => truncMinute r.timestamp) readings cutoff

/-- The `consumptionByDevice` object of the aggregator: readings strictly
newer than `cutoff` accumulated under their `device_id`. -/
def deviceMap (readings : List Reading) (cutoff : Int) : List (String × ℚ) :=
  buildMap (fun r => r.device_id) readings cutoff

/-- `Object.keys(consumptionByDevice).sort((a, b) =>
consumptionByDevice[b] - consumptionByDevice[a])`: the keys, stably sorted
descending by stored value. -/
def sortedDeviceKeys (m : List (String × ℚ)) : List String :=
  List.insertionSort (fun a b => lookupQ m b ≤ lookupQ m a) (m.map Prod.fst)

/-- `aggregateConsumptionByTime(readings, hours)` of Dashboard.jsx, with the
implicit `Date.now()` passed explicitly as `now`. Buckets surviving readings
by minute, sums consumption per bucket, and returns labels sorted ascending
with their values. -/
def aggregateConsumptionByTime (readings : List Reading) (hours : Int)
    (now : Int) : TimeSeries :=
  let consumptionByMinute := minuteMap readings (now - hours * 3600000)
  let labels := List.insertionSort (· ≤ ·) (consumptionByMinute.map Prod.fst)
  { labels := labels, values := labels.map (lookupQ consumptionByMinute) }

/-- `aggregateConsumptionByDevice(readings, hours)` of Dashboard.jsx, with
`Date.now()` passed explicitly as `now`. Sums consumption per device over
the window, sorts device keys descending by summed value, keeps the top 5. -/
def aggregateConsumptionByDevice (readings : List Reading) (hours : Int)
    (now : Int) : DeviceSeries :=
  let consumptionByDevice := deviceMap readings (now - hours * 3600000)
  let labels := (sortedDeviceKeys consumptionByDevice).take 5
  { labels := labels, values := labels.map (lookupQ consumptionByDevice) }

/-- The three advisory categories of the suggestion rule. -/
inductive UsageCategory where
  | highUsage
  | moderateUsage
  | lowUsage
deriving DecidableEq, Repr

/-- The fixed advisory string of each category, verbatim from
`generateSmartSuggestion`. -/
def advisoryText : UsageCategory → String
  | .highUsage => "Consider turning off unused appliances or using energy-saving mode."
  | .moderateUsage => "Moderate usage. Try using appliances during off-peak hours to save energy."
  | .lowUsage => "Great! Your energy usage is low. Keep it up!"

/-- The branch structure of `generateSmartSuggestion`, keeping only the
category (the spec name `classify`): `> 5` high, else `>= 2 && <= 5`
moderate, else low. -/
def classify (consumption : ℚ) : UsageCategory :=
  if 5 < consumption then .highUsage
  else if 2 ≤ consumption ∧ consumption ≤ 5 then .moderateUsage
  else .lowUsage

/-- `generateSmartSuggestion(consumption)` of Dashboard.jsx. -/
def generateSmartSuggestion (consumption : ℚ) : String :=
  if 5 < consumption then advisoryText .highUsage
  else if 2 ≤ consumption ∧ consumption ≤ 5 then advisoryText .moderateUsage
  else advisoryText .lowUsage

/-- The `cardView` state: which button of the readings panel is active. -/
inductive CardView where
  | date
  | consumption
  | anomalies
deriving DecidableEq, Repr

/-- The `consumptionFilter` sub-state (`high` / `medium` / `low`); the
initial `null` is modelled by `Option.none` at use sites. -/
inductive Tier where
  | high
  | medium
  | low
deriving DecidableEq, Repr

/-- `filtered.sort((a, b) => b.consumption_kwh - a.consumption_kwh)`:
stable sort, descending by consumption. -/
def sortByConsumptionDesc (l : List Reading) : List Reading :=
  List.insertionSort (fun a b => b.consumption_kwh ≤ a.consumption_kwh) l

/-- `filtered.sort((a, b) => new Date(b.timestamp) - new Date(a.timestamp))`:
stable sort, descending by timestamp. -/
def sortByTimestampDesc (l : List Reading) : List Reading :=
  List.insertionSort (fun a b => b.timestamp ≤ a.timestamp) l

/-- The per-tier predicates of the `consumptionFilter` branch. -/
def tierKeeps (t : Tier) (r : Reading) : Bool :=
  match t with
  | .high => decide (5 < r.consumption_kwh)
  | .medium => decide (2 ≤ r.consumption_kwh ∧ r.consumption_kwh ≤ 5)
  | .low => decide (r.consumption_kwh < 2)

/-- `if (consumptionFilter) { ... }`: the secondary tier filter, a no-op
when the filter is unset. -/
def applyTierFilter (t : Option Tier) (l : List Reading) : List Reading :=
  match t with
  | none => l
  | some t => l.filter (tierKeeps t)

/-- `getFilteredReadings()` of Dashboard.jsx, with the component state
(`cardView`, `consumptionFilter`) passed explicitly. Copies the input,
filters by anomaly or sorts according to the view, then applies the
tier filter. -/
def getFilteredReadings (recentReadings : List Reading) (cardView : CardView)
    (consumptionFilter : Option Tier) : List Reading :=
  let filtered := recentReadings
  let processed :=
    match cardView with
    | .anomalies => filtered.filter (fun r => r.anomaly_detected)
    | .consumption => sortByConsumptionDesc filtered
    | .date => sortByTimestampDesc filtered
  applyTierFilter consumptionFilter processed

/-- State of a top-level payload key as delivered by the poller: absent
(`undefined`), present with a well-shaped value, or present but malformed
(a value of the wrong shape, e.g. `null` where an array is expected). -/
inductive RawField (α : Type) where
  | missing
  | malformed
  | val (a : α)
deriving DecidableEq, Repr

/-- The polled payload `apiData`, each top-level key in raw state. The
device map is an association list in key insertion order. -/
structure ApiData where
  recentReadings : RawField (List Reading)
  dailySummaries : RawField (List DailySummary)
  anomalies : RawField (List Anomaly)
  consumptionByDevice : RawField (List (String × ℚ))
deriving DecidableEq, Repr

/-- Combined effect of `const { k = dflt } = apiData` followed by the use of
`k` as a collection: a missing key destructures to the default, a
well-shaped value is used as is, and a malformed value passes through the
destructuring untouched and then throws at its first collection use
(`forEach` / spread / `Object.keys` on `null`, ...), modelled as `none`. -/
def useField {α : Type} (f : RawField α) (dflt : α) : Option α :=
  match f with
  | .missing => some dflt
  | .val a => some a
  | .malformed => none

/-- Everything the Dashboard component derives from the payload on one
render: the trend series, the device ranking, the pie data, the anomaly
list on display, the filtered readings and the two summary lookups. -/
structure DashboardOutputs where
  trend : TimeSeries
  topDevices : DeviceSeries
  pieLabels : List String
  pieValues : List ℚ
  anomalyDisplay : List Anomaly
  filtered : List Reading
  todaySummary : Option DailySummary
  yesterdaySummary : Option DailySummary
deriving DecidableEq, Repr

/-- The derivation pass of the Dashboard component body over the payload
(Dashboard.jsx lines 82-99, 127-130, 216-240, 305), with the clock, the
view state and the `today` / `yesterday` date keys passed explicitly.
`aggregateConsumptionByDevice` is called without an `hours` argument in the
source, so it uses the default window of 1 hour. Returns `none` when a
malformed field throws. -/
def dashboardDerived (apiData : ApiData) (timeFrame now : Int)
    (cardView : CardView) (consumptionFilter : Option Tier)
    (today yesterday : String) : Option DashboardOutputs :=
  match useField apiData.recentReadings [], useField apiData.dailySummaries [],
      useField apiData.anomalies [], useField apiData.consumptionByDevice [] with
  | some recentReadings, some dailySummaries, some anomalies,
      some consumptionByDevice =>
    some
      { trend := aggregateConsumptionByTime recentReadings timeFrame now
        topDevices := aggregateConsumptionByDevice recentReadings 1 now
        pieLabels := consumptionByDevice.map Prod.fst
        pieValues := consumptionByDevice.map Prod.snd
        anomalyDisplay := anomalies.take 5
        filtered := getFilteredReadings recentReadings cardView consumptionFilter
        todaySummary := dailySummaries.find? (fun s => decide (s.date = today))
        yesterdaySummary := dailySummaries.find? (fun s => decide (s.date = yesterday)) }
  | _, _, _, _ => none

/-- Replace every missing key of the payload by an explicit empty
collection, leaving well-shaped and malformed keys alone. -/
def fillField {α : Type} (dflt : α) (f : RawField α) : RawField α :=
  match f with
  | .missing => .val dflt
  | x => x

/-- The payload with all missing keys replaced by empty collections. -/
def fillMissing (d : ApiData) : ApiData :=
  { recentReadings := fillField [] d.recentReadings
    dailySummaries := fillField [] d.dailySummaries
    anomalies := fillField [] d.anomalies
    consumptionByDevice := fillField [] d.consumptionByDevice }

/-- No key of the payload is malformed (each is missing or well-shaped). -/
def wellShaped (d : ApiData) : Prop :=
  d.recentReadings ≠ .malformed ∧ d.dailySummaries ≠ .malformed ∧
    d.anomalies ≠ .malformed ∧ d.consumptionByDevice ≠ .malformed

instance (d : ApiData) : Decidable (wellShaped d) := by
  unfold wellShaped; infer_instance

/-- A mutable-array store: JS array references are indices into it. Used to
track which arrays `getFilteredReadings` writes to. -/
abbrev Store := List (List Reading)

/-- Dereference: the array a reference points to. -/
def readRef (st : Store) (r : Nat) : List Reading := st.getD r []

/-- In-place update of the array a reference points to (`Array.prototype.sort`
mutates its receiver). -/
def writeRef (st : Store) (r : Nat) (v : List Reading) : Store :=
  st.set r v

/-- Allocation of a fresh array (array literals, spread copies and the
result of `filter`), returning the extended store and the new reference. -/
def allocRef (st : Store) (v : List Reading) : Store × Nat :=
  (st ++ [v], st.length)

/-- `getFilteredReadings()` replayed against the store, tracking every
allocation and in-place write: `let filtered = [...recentReadings]`
allocates a copy; the `anomalies` branch rebinds `filtered` to a freshly
allocated `filter` result; the two sorting branches write the sorted
contents back in place through `filtered`; the tier branch rebinds to a
freshly allocated `filter` result. Returns the final store and the contents
of the returned array. -/
def getFilteredReadingsHeap (st : Store) (recentRef : Nat)
    (cardView : CardView) (consumptionFilter : Option Tier) :
    Store × List Reading :=
  let (st1, fRef) := allocRef st (readRef st recentRef)
  let (st2, fRef2) :=
    match cardView with
    | .anomalies =>
        allocRef st1 ((readRef st1 fRef).filter (fun r => r.anomaly_detected))
    | .consumption =>
        (writeRef st1 fRef (sortByConsumptionDesc (readRef st1 fRef)), fRef)
    | .date =>
        (writeRef st1 fRef (sortByTimestampDesc (readRef st1 fRef)), fRef)
  let (st3, fRef3) :=
    match consumptionFilter with
    | none => (st2, fRef2)
    | some t => allocRef st2 ((readRef st2 fRef2).filter (tierKeeps t))
  (st3, readRef st3 fRef3)

/-- Sample reading 1 ms after a cutoff that falls 30 s into a minute. -/
def sampleNearCutoff : Reading := ⟨"A", "kitchen", 30001, 1, "on", false⟩

/-- Sample reading far older than any cutoff used with it. -/
def sampleOld : Reading := ⟨"A", "kitchen", 50, 1, "on", false⟩

/-- Sample in-window reading of device A, 6 kWh. -/
def sampleTieA : Reading := ⟨"A", "kitchen", 6900000, 6, "on", false⟩

/-- Sample in-window reading of device B, also 6 kWh (a ranking tie). -/
def sampleTieB : Reading := ⟨"B", "garage", 7000000, 6, "on", false⟩

/-- Sample high-consumption anomalous reading. -/
def sampleHigh : Reading := ⟨"H", "kitchen", 1000, 6, "on", true⟩

/-! ### Helper lemmas: the accumulator object -/

theorem bumpQ_snd_sum {κ : Type} [DecidableEq κ] (m : List (κ × ℚ)) (k : κ)
    (v : ℚ) : ((bumpQ m k v).map Prod.snd).sum = (m.map Prod.snd).sum + v := by
  induction m with
  | nil => simp [bumpQ]
  | cons p rest ih =>
      obtain ⟨k', v'⟩ := p
      by_cases h : k' = k
      · simp [bumpQ, h]; ring
      · simp [bumpQ, h, ih]; ring

theorem bumpQ_fst {κ : Type} [DecidableEq κ] (m : List (κ × ℚ)) (k : κ)
    (v : ℚ) :
    (bumpQ m k v).map Prod.fst =
      if k ∈ m.map Prod.fst then m.map Prod.fst else m.map Prod.fst ++ [k] := by
  induction m with
  | nil => simp [bumpQ]
  | cons p rest ih =>
      obtain ⟨k', v'⟩ := p
      by_cases h : k' = k
      · subst h; simp [bumpQ]
      · by_cases hk : k ∈ rest.map Prod.fst <;>
          simp [bumpQ, h, ih, hk, Ne.symm h]

theorem bumpQ_mem_fst {κ : Type} [DecidableEq κ] (m : List (κ × ℚ)) (k k' : κ)
    (v : ℚ) :
    k' ∈ (bumpQ m k v).map Prod.fst ↔ k' ∈ m.map Prod.fst ∨ k' = k := by
  rw [bumpQ_fst]
  split
  · next hk => constructor
               · exact fun h => Or.inl h
               · rintro (h | rfl)
                 · exact h
                 · exact hk
  · simp

theorem bumpQ_fst_nodup {κ : Type} [DecidableEq κ] (m : List (κ × ℚ)) (k : κ)
    (v : ℚ) (h : (m.map Prod.fst).Nodup) :
    ((bumpQ m k v).map Prod.fst).Nodup := by
  rw [bumpQ_fst]
  split
  · exact h
  · next hk => exact h.append (List.nodup_singleton k) (by simpa using hk)

theorem lookupQ_head {κ : Type} [DecidableEq κ] (k : κ) (v : ℚ)
    (m : List (κ × ℚ)) : lookupQ ((k, v) :: m) k = v := by
  simp [lookupQ]

theorem lookupQ_cons_ne {κ : Type} [DecidableEq κ] (k₀ : κ) (v₀ : ℚ)
    (m : List (κ × ℚ)) (k : κ) (h : k₀ ≠ k) :
    lookupQ ((k₀, v₀) :: m) k = lookupQ m k := by
  simp [lookupQ, h]

/-- With no duplicate keys, reading every key back from the object returns
exactly the stored values. -/
theorem map_lookupQ_fst {κ : Type} [DecidableEq κ] (m : List (κ × ℚ))
    (h : (m.map Prod.fst).Nodup) :
    (m.map Prod.fst).map (lookupQ m) = m.map Prod.snd := by
  induction m with
  | nil => simp
  | cons p rest ih =>
      obtain ⟨k₀, v₀⟩ := p
      simp only [List.map_cons, List.nodup_cons] at h ⊢
      refine congrArg₂ (· :: ·) (lookupQ_head k₀ v₀ rest) ?_
      rw [List.map_congr_left fun k hk =>
        lookupQ_cons_ne k₀ v₀ rest k (fun e => h.1 (e ▸ hk))]
      exact ih h.2

theorem buildMapFrom_snd_sum {κ : Type} [DecidableEq κ] (key : Reading → κ)
    (cutoff : Int) :
    ∀ (readings : List Reading) (m : List (κ × ℚ)),
      ((buildMapFrom key cutoff m readings).map Prod.snd).sum =
        (m.map Prod.snd).sum +
          ((readings.filter fun r => decide (cutoff < r.timestamp)).map
            fun r => r.consumption_kwh).sum
  | [], m => by simp [buildMapFrom]
  | r :: rest, m => by
      by_cases h : cutoff < r.timestamp
      · simp [buildMapFrom, List.filter_cons, h,
          buildMapFrom_snd_sum key cutoff rest, bumpQ_snd_sum]
        ring
      · simp [buildMapFrom, List.filter_cons, h,
          buildMapFrom_snd_sum key cutoff rest]

theorem buildMapFrom_mem_fst {κ : Type} [DecidableEq κ] (key : Reading → κ)
    (cutoff : Int) :
    ∀ (readings : List Reading) (m : List (κ × ℚ)) (k : κ),
      k ∈ (buildMapFrom key cutoff m readings).map Prod.fst ↔
        k ∈ m.map Prod.fst ∨
          ∃ r, r ∈ readings ∧ cutoff < r.timestamp ∧ key r = k
  | [], m, k => by simp [buildMapFrom]
  | r :: rest, m, k => by
      by_cases h : cutoff < r.timestamp
      · simp only [buildMapFrom, if_pos h,
          buildMapFrom_mem_fst key cutoff rest, bumpQ_mem_fst, List.mem_cons]
        constructor
        · rintro ((hm | rfl) | ⟨r', hr', hcut, hkey⟩)
          · exact Or.inl hm
          · exact Or.inr ⟨r, Or.inl rfl, h, rfl⟩
          · exact Or.inr ⟨r', Or.inr hr', hcut, hkey⟩
        · rintro (hm | ⟨r', (rfl | hr'), hcut, hkey⟩)
          · exact Or.inl (Or.inl hm)
          · exact Or.inl (Or.inr hkey.symm)
          · exact Or.inr ⟨r', hr', hcut, hkey⟩
      · simp only [buildMapFrom, if_neg h,
          buildMapFrom_mem_fst key cutoff rest, List.mem_cons]
        constructor
        · rintro (hm | ⟨r', hr', hcut, hkey⟩)
          · exact Or.inl hm
          · exact Or.inr ⟨r', Or.inr hr', hcut, hkey⟩
        · rintro (hm | ⟨r', (rfl | hr'), hcut, hkey⟩)
          · exact Or.inl hm
          · exact absurd hcut h
          · exact Or.inr ⟨r', hr', hcut, hkey⟩

theorem buildMapFrom_fst_nodup {κ : Type} [DecidableEq κ] (key : Reading → κ)
    (cutoff : Int) :
    ∀ (readings : List Reading) (m : List (κ × ℚ)),
      (m.map Prod.fst).Nodup →
        ((buildMapFrom key cutoff m readings).map Prod.fst).Nodup
  | [], m, h => h
  | r :: rest, m, h => by
      unfold buildMapFrom
      split
      · exact buildMapFrom_fst_nodup key cutoff rest _
          (bumpQ_fst_nodup m (key r) r.consumption_kwh h)
      · exact buildMapFrom_fst_nodup key cutoff rest m h

theorem buildMapFrom_of_all_old {κ : Type} [DecidableEq κ] (key : Reading → κ)
    (cutoff : Int) :
    ∀ (readings : List Reading) (m : List (κ × ℚ)),
      (∀ r ∈ readings, ¬ cutoff < r.timestamp) →
        buildMapFrom key cutoff m readings = m
  | [], _, _ => rfl
  | r :: rest, m, h => by
      unfold buildMapFrom
      rw [if_neg (h r (List.mem_cons_self r rest))]
      exact buildMapFrom_of_all_old key cutoff rest m
        fun r' hr' => h r' (List.mem_cons_of_mem r hr')

theorem buildMap_snd_sum {κ : Type} [DecidableEq κ] (key : Reading → κ)
    (readings : List Reading) (cutoff : Int) :
    ((buildMap key readings cutoff).map Prod.snd).sum =
      ((readings.filter fun r => decide (cutoff < r.timestamp)).map
        fun r => r.consumption_kwh).sum := by
  simpa using buildMapFrom_snd_sum key cutoff readings []

theorem buildMap_mem_fst {κ : Type} [DecidableEq κ] (key : Reading → κ)
    (readings : List Reading) (cutoff : Int) (k : κ) :
    k ∈ (buildMap key readings cutoff).map Prod.fst ↔
      ∃ r, r ∈ readings ∧ cutoff < r.timestamp ∧ key r = k := by
  simpa using buildMapFrom_mem_fst key cutoff readings [] k

theorem buildMap_fst_nodup {κ : Type} [DecidableEq κ] (key : Reading → κ)
    (readings : List Reading) (cutoff : Int) :
    ((buildMap key readings cutoff).map Prod.fst).Nodup :=
  buildMapFrom_fst_nodup key cutoff readings [] (by simp)

/-- Instants truncated to their minute stay within one minute below the
original instant. -/
theorem truncMinute_bounds (t : Int) :
    t - 60000 < truncMinute t ∧ truncMinute t ≤ t := by
  unfold truncMinute
  omega

/-- The suggestion string is exactly the advisory text of the category
(`classify` is the branch structure of `generateSmartSuggestion`). -/
theorem generateSmartSuggestion_eq_advisoryText (c : ℚ) :
    generateSmartSuggestion c = advisoryText (classify c) := by
  unfold generateSmartSuggestion classify
  split_ifs <;> rfl

/-! ### Claim theorems -/

/-- C1 (counterexample): with `now` 30 s past a minute boundary plus one
window, a reading 1 ms after the cutoff survives, but its bucket label is
truncated to the minute start, an instant at most the cutoff. The claim
that every bucket label is strictly later than `now − W` hours is false. -/
theorem c1_counterexample :
    ¬ (∀ l ∈ (aggregateConsumptionByTime [sampleNearCutoff] 1 3630000).labels,
        (3630000 : Int) - 1 * 3600000 < l) := by decide

/-- C1 (amended): every bucket label of `aggregateConsumptionByTime` is
strictly later than one minute before the cutoff `now − hours` (each label
is the minute truncation of some surviving reading's timestamp, and
truncation loses less than one minute). -/
theorem c1_labels_within_minute_of_cutoff (readings : List Reading)
    (hours now : Int) :
    ∀ l ∈ (aggregateConsumptionByTime readings hours now).labels,
      now - hours * 3600000 - 60000 < l := by
  intro l hl
  have hl' : l ∈ (buildMap (fun r => truncMinute r.timestamp) readings
      (now - hours * 3600000)).map Prod.fst := by
    simpa [aggregateConsumptionByTime, minuteMap, List.mem_insertionSort] using hl
  rw [buildMap_mem_fst] at hl'
  obtain ⟨r, _, hcut, rfl⟩ := hl'
  have hb := truncMinute_bounds r.timestamp
  omega

/-- C1 witness: the amended bound instantiated at the counterexample input,
whose only bucket label is the epoch minute 0. -/
theorem c1_witness : (3630000 : Int) - 1 * 3600000 - 60000 < 0 :=
  c1_labels_within_minute_of_cutoff [sampleNearCutoff] 1 3630000 0 (by decide)

/-- C2: conservation of mass. The sum of all bucket values equals the sum
of `consumption_kwh` over exactly the readings strictly newer than the
cutoff; the empty list gives the empty series, and so does a list whose
readings are all at or before the cutoff. -/
theorem c2_conservation (readings : List Reading) (hours now : Int) :
    (aggregateConsumptionByTime readings hours now).values.sum =
      ((readings.filter fun r =>
          decide (now - hours * 3600000 < r.timestamp)).map
        fun r => r.consumption_kwh).sum ∧
    aggregateConsumptionByTime [] hours now = ⟨[], []⟩ ∧
    ((∀ r ∈ readings, r.timestamp ≤ now - hours * 3600000) →
      aggregateConsumptionByTime readings hours now = ⟨[], []⟩) := by
  refine ⟨?_, rfl, ?_⟩
  · have hperm :
        List.Perm
          (List.insertionSort (· ≤ ·)
            ((buildMap (fun r => truncMinute r.timestamp) readings
              (now - hours * 3600000)).map Prod.fst))
          ((buildMap (fun r => truncMinute r.timestamp) readings
            (now - hours * 3600000)).map Prod.fst) :=
      List.perm_insertionSort _ _
    calc (aggregateConsumptionByTime readings hours now).values.sum
        = (((buildMap (fun r => truncMinute r.timestamp) readings
              (now - hours * 3600000)).map Prod.fst).map
            (lookupQ (buildMap (fun r => truncMinute r.timestamp) readings
              (now - hours * 3600000)))).sum :=
          (hperm.map _).sum_eq
      _ = ((buildMap (fun r => truncMinute r.timestamp) readings
            (now - hours * 3600000)).map Prod.snd).sum := by
          rw [map_lookupQ_fst _ (buildMap_fst_nodup _ readings _)]
      _ = _ := buildMap_snd_sum _ readings _
  · intro h
    have hempty : buildMap (fun r => truncMinute r.timestamp) readings
        (now - hours * 3600000) = [] :=
      buildMapFrom_of_all_old _ _ readings []
        fun r hr => not_lt.mpr (h r hr)
    simp [aggregateConsumptionByTime, minuteMap, hempty]

/-- C2 witness: a single reading at or before the cutoff yields the empty
series. -/
theorem c2_witness : aggregateConsumptionByTime [sampleOld] 1 3700000 = ⟨[], []⟩ :=
  (c2_conservation [sampleOld] 1 3700000).2.2 (by decide)

/-- C4: with the anomalies view and no tier filter, `getFilteredReadings`
is exactly the anomaly-flagged sublist of the input in its original order. -/
theorem c4_anomaly_view (readings : List Reading) :
    getFilteredReadings readings .anomalies none =
      readings.filter fun r => r.anomaly_detected := rfl

/-- C6: the suggestion classification is high above 5, moderate on
[2, 5], low below 2, with the stated boundary values. -/
theorem c6_classify_boundaries :
    (∀ x : ℚ, 5 < x → classify x = .highUsage) ∧
    (∀ x : ℚ, 2 ≤ x → x ≤ 5 → classify x = .moderateUsage) ∧
    (∀ x : ℚ, x < 2 → classify x = .lowUsage) ∧
    classify 5 = .moderateUsage ∧ classify (501 / 100) = .highUsage ∧
    classify 2 = .moderateUsage ∧ classify (199 / 100) = .lowUsage := by
  refine ⟨?_, ?_, ?_, by norm_num [classify], by norm_num [classify],
    by norm_num [classify], by norm_num [classify]⟩
  · intro x hx
    simp [classify, hx]
  · intro x h1 h2
    have h5 : ¬ 5 < x := not_lt.mpr h2
    simp [classify, h5, h1, h2]
  · intro x hx
    have h5 : ¬ 5 < x := by linarith
    have h25 : ¬ (2 ≤ x ∧ x ≤ 5) := fun hc => absurd hx (not_lt.mpr hc.1)
    simp [classify, h5, h25]

/-- C6 witness: the three band implications instantiated at 7, 3 and 1. -/
theorem c6_witness :
    classify 7 = UsageCategory.highUsage ∧
      classify 3 = UsageCategory.moderateUsage ∧
      classify 1 = UsageCategory.lowUsage :=
  ⟨c6_classify_boundaries.1 7 (by norm_num),
   c6_classify_boundaries.2.1 3 (by norm_num) (by norm_num),
   c6_classify_boundaries.2.2.1 1 (by norm_num)⟩

/-- C7: totality. On any input of the documented shape, each core function
returns a value: every branch is defined (in this embedding all four are
total Lean functions; no error case exists). -/
theorem c7_totality (readings : List Reading) (hours now : Int)
    (view : CardView) (tier : Option Tier) (c : ℚ) :
    (∃ ts, aggregateConsumptionByTime readings hours now = ts) ∧
    (∃ ds, aggregateConsumptionByDevice readings hours now = ds) ∧
    (∃ fr, getFilteredReadings readings view tier = fr) ∧
    (∃ s, generateSmartSuggestion c = s) :=
  ⟨⟨_, rfl⟩, ⟨_, rfl⟩, ⟨_, rfl⟩, ⟨_, rfl⟩⟩

/-- The sorted device keys are a permutation of the object keys. -/
theorem sortedDeviceKeys_perm (m : List (String × ℚ)) :
    List.Perm (sortedDeviceKeys m) (m.map Prod.fst) :=
  List.perm_insertionSort _ _

/-- The sorted device keys are pairwise non-increasing in stored value. -/
theorem sortedDeviceKeys_sorted (m : List (String × ℚ)) :
    List.Pairwise (fun a b => lookupQ m b ≤ lookupQ m a)
      (sortedDeviceKeys m) := by
  haveI : IsTotal String (fun a b => lookupQ m b ≤ lookupQ m a) :=
    ⟨fun a b => le_total _ _⟩
  haveI : IsTrans String (fun a b => lookupQ m b ≤ lookupQ m a) :=
    ⟨fun a b c h1 h2 => le_trans h2 h1⟩
  exact List.sorted_insertionSort _ _

/-- The ranking keeps at most 5 labels. -/
theorem deviceLabels_le_five (m : List (String × ℚ)) :
    ((sortedDeviceKeys m).take 5).length ≤ 5 := by
  rw [List.length_take]
  exact min_le_left _ _

/-- The ranking keeps at most one label per distinct in-window device. -/
theorem deviceLabels_le_distinct (readings : List Reading) (cutoff : Int) :
    ((sortedDeviceKeys (deviceMap readings cutoff)).take 5).length ≤
      ((readings.filter fun r => decide (cutoff < r.timestamp)).map
        fun r => r.device_id).toFinset.card := by
  have hnodup : ((deviceMap readings cutoff).map Prod.fst).Nodup := by
    unfold deviceMap
    exact buildMap_fst_nodup _ readings cutoff
  have hft : ((deviceMap readings cutoff).map Prod.fst).toFinset =
      ((readings.filter fun r => decide (cutoff < r.timestamp)).map
        fun r => r.device_id).toFinset := by
    ext k
    rw [List.mem_toFinset, List.mem_toFinset,
      show deviceMap readings cutoff =
        buildMap (fun r => r.device_id) readings cutoff from rfl,
      buildMap_mem_fst]
    simp only [List.mem_map, List.mem_filter, decide_eq_true_eq]
    constructor
    · rintro ⟨r, hr, hc, rfl⟩
      exact ⟨r, ⟨hr, hc⟩, rfl⟩
    · rintro ⟨r, ⟨hr, hc⟩, rfl⟩
      exact ⟨r, hr, hc, rfl⟩
  have hlen : (sortedDeviceKeys (deviceMap readings cutoff)).length =
      ((deviceMap readings cutoff).map Prod.fst).length :=
    (sortedDeviceKeys_perm _).length_eq
  rw [List.length_take, hlen, ← List.toFinset_card_of_nodup hnodup, hft]
  exact min_le_right _ _

/-- The ranked values are pairwise non-increasing. -/
theorem deviceValues_sorted (m : List (String × ℚ)) :
    List.Pairwise (fun a b : ℚ => b ≤ a)
      (((sortedDeviceKeys m).take 5).map (lookupQ m)) := by
  refine List.Pairwise.map (lookupQ m) (fun a b h => h) ?_
  exact List.Pairwise.sublist (List.take_sublist 5 _) (sortedDeviceKeys_sorted m)

/-- C3 (counterexample): two in-window devices with equal sums give the
ranking values `[6, 6]`, which are not strictly descending; the claim that
the ranking values are strictly descending is false. -/
theorem c3_counterexample :
    ¬ List.Pairwise (fun a b => (b : ℚ) < a)
      (aggregateConsumptionByDevice [sampleTieA, sampleTieB] 1 7200000).values := by
  decide

/-- C3 (amended): the ranking of `aggregateConsumptionByDevice` has length
at most `min(5, number of distinct in-window devices)`, and its values are
non-increasing (descending with ties allowed). -/
theorem c3_ranking (readings : List Reading) (hours now : Int) :
    (aggregateConsumptionByDevice readings hours now).labels.length ≤ 5 ∧
    (aggregateConsumptionByDevice readings hours now).labels.length ≤
      ((readings.filter fun r =>
          decide (now - hours * 3600000 < r.timestamp)).map
        fun r => r.device_id).toFinset.card ∧
    List.Pairwise (fun a b : ℚ => b ≤ a)
      (aggregateConsumptionByDevice readings hours now).values :=
  ⟨deviceLabels_le_five _,
   deviceLabels_le_distinct readings (now - hours * 3600000),
   deviceValues_sorted _⟩

/-- The consumption sort is a permutation of its input. -/
theorem sortByConsumptionDesc_perm (l : List Reading) :
    List.Perm (sortByConsumptionDesc l) l :=
  List.perm_insertionSort _ _

/-- The consumption sort is pairwise non-increasing in consumption. -/
theorem sortByConsumptionDesc_sorted (l : List Reading) :
    List.Pairwise (fun a b : Reading => b.consumption_kwh ≤ a.consumption_kwh)
      (sortByConsumptionDesc l) := by
  haveI : IsTotal Reading
      (fun a b : Reading => b.consumption_kwh ≤ a.consumption_kwh) :=
    ⟨fun a b => le_total _ _⟩
  haveI : IsTrans Reading
      (fun a b : Reading => b.consumption_kwh ≤ a.consumption_kwh) :=
    ⟨fun a b c h1 h2 => le_trans h2 h1⟩
  exact List.sorted_insertionSort _ _

/-- C5: with the consumption view and the high tier, `getFilteredReadings`
returns only readings above 5 kWh, misses no input reading above 5 kWh, and
is sorted descending (non-increasing) by consumption. -/
theorem c5_consumption_high (readings : List Reading) :
    (∀ r ∈ getFilteredReadings readings .consumption (some .high),
      5 < r.consumption_kwh) ∧
    (∀ r ∈ readings, 5 < r.consumption_kwh →
      r ∈ getFilteredReadings readings .consumption (some .high)) ∧
    List.Pairwise (fun a b : Reading => b.consumption_kwh ≤ a.consumption_kwh)
      (getFilteredReadings readings .consumption (some .high)) := by
  refine ⟨?_, ?_, ?_⟩
  · intro r hr
    have hr' : r ∈ (sortByConsumptionDesc readings).filter (tierKeeps .high) := hr
    have := (List.mem_filter.mp hr').2
    simpa [tierKeeps] using this
  · intro r hr h5
    show r ∈ (sortByConsumptionDesc readings).filter (tierKeeps .high)
    rw [List.mem_filter]
    exact ⟨(sortByConsumptionDesc_perm readings).mem_iff.mpr hr,
      by simpa [tierKeeps] using h5⟩
  · exact List.Pairwise.sublist (List.filter_sublist _)
      (sortByConsumptionDesc_sorted readings)

/-- C5 witness: a 6 kWh reading is kept by the high-tier consumption view. -/
theorem c5_witness :
    sampleHigh ∈ getFilteredReadings [sampleHigh] .consumption (some .high) :=
  (c5_consumption_high [sampleHigh]).2.1 sampleHigh (by decide) (by decide)

/-- C8 (counterexample): a payload whose `recentReadings` key is present
but malformed does not behave as if the key held the empty collection — the
derivation fails (`none`), while the all-empty payload succeeds. -/
theorem c8_counterexample :
    dashboardDerived ⟨.malformed, .missing, .missing, .missing⟩ 1 0 .date none
        "t" "y" = none ∧
    (dashboardDerived ⟨.val [], .val [], .val [], .val []⟩ 1 0 .date none
        "t" "y").isSome = true :=
  ⟨rfl, rfl⟩

/-- C8 (amended): missing top-level keys behave exactly as if they held the
empty collection (the derivation is unchanged by filling them in), and on
any payload with no malformed key the derivation does not fail. Malformed
keys are not defended against. -/
theorem c8_missing_defaults (d : ApiData) (timeFrame now : Int)
    (view : CardView) (tier : Option Tier) (today yesterday : String) :
    dashboardDerived d timeFrame now view tier today yesterday =
      dashboardDerived (fillMissing d) timeFrame now view tier today yesterday ∧
    (wellShaped d →
      (dashboardDerived d timeFrame now view tier today yesterday).isSome
        = true) := by
  obtain ⟨f1, f2, f3, f4⟩ := d
  constructor
  · cases f1 <;> cases f2 <;> cases f3 <;> cases f4 <;> rfl
  · intro h
    cases f1 <;> cases f2 <;> cases f3 <;> cases f4 <;>
      simp_all [wellShaped, dashboardDerived, useField]

/-- C8 witness: the fully absent payload derives successfully (and, by the
equality conjunct, exactly as the all-empty payload does). -/
theorem c8_witness :
    (dashboardDerived ⟨.missing, .missing, .missing, .missing⟩ 1 0 .date none
      "t" "y").isSome = true :=
  (c8_missing_defaults ⟨.missing, .missing, .missing, .missing⟩ 1 0 .date none
    "t" "y").2 (by decide)

/-- Reads below the end of a store are unaffected by an allocation. -/
theorem readRef_append_lt (st : Store) (v : List Reading) (i : Nat)
    (h : i < st.length) : readRef (st ++ [v]) i = readRef st i := by
  unfold readRef
  exact List.getD_append _ _ _ _ h

/-- Reads at a different cell are unaffected by an in-place write. -/
theorem readRef_set_ne (st : Store) (j : Nat) (v : List Reading) (i : Nat)
    (h : i ≠ j) : readRef (st.set j v) i = readRef st i := by
  unfold readRef
  rw [List.getD_eq_getElem?_getD, List.getD_eq_getElem?_getD,
    List.getElem?_set_ne (Ne.symm h)]

/-- Reading a freshly allocated cell returns its contents. -/
theorem readRef_append_self (st : Store) (v : List Reading) :
    readRef (st ++ [v]) st.length = v := by
  unfold readRef
  rw [List.getD_append_right _ _ _ _ (le_refl _)]
  simp

/-- Reading a cell just written returns the written contents. -/
theorem readRef_set_self (st : Store) (j : Nat) (v : List Reading)
    (h : j < st.length) : readRef (st.set j v) j = v := by
  unfold readRef
  rw [List.getD_eq_getElem?_getD, List.getElem?_set_self h]
  rfl

/-- C9 (frame property): `getFilteredReadings` never mutates the caller's
array. Replayed against the store, the cell holding `recentReadings` is
unchanged after the call: the spread copies it into a fresh cell, the
in-place sorts write only to that fresh cell, and the filters allocate new
cells. -/
theorem c9_no_mutation (st : Store) (recentRef : Nat) (view : CardView)
    (tier : Option Tier) (h : recentRef < st.length) :
    readRef (getFilteredReadingsHeap st recentRef view tier).1 recentRef =
      readRef st recentRef := by
  have hne : recentRef ≠ st.length := Nat.ne_of_lt h
  have h1 : recentRef < (st ++ [readRef st recentRef]).length := by
    simp only [List.length_append, List.length_cons, List.length_nil]
    omega
  cases view <;> cases tier <;>
    simp only [getFilteredReadingsHeap, allocRef, writeRef]
  case date.none =>
    exact (readRef_set_ne _ _ _ _ hne).trans (readRef_append_lt _ _ _ h)
  case date.some t =>
    refine (readRef_append_lt _ _ _ ?_).trans
      ((readRef_set_ne _ _ _ _ hne).trans (readRef_append_lt _ _ _ h))
    simp only [List.length_set, List.length_append, List.length_cons,
      List.length_nil]
    omega
  case consumption.none =>
    exact (readRef_set_ne _ _ _ _ hne).trans (readRef_append_lt _ _ _ h)
  case consumption.some t =>
    refine (readRef_append_lt _ _ _ ?_).trans
      ((readRef_set_ne _ _ _ _ hne).trans (readRef_append_lt _ _ _ h))
    simp only [List.length_set, List.length_append, List.length_cons,
      List.length_nil]
    omega
  case anomalies.none =>
    exact (readRef_append_lt _ _ _ h1).trans (readRef_append_lt _ _ _ h)
  case anomalies.some t =>
    refine (readRef_append_lt _ _ _ ?_).trans
      ((readRef_append_lt _ _ _ h1).trans (readRef_append_lt _ _ _ h))
    simp only [List.length_append, List.length_cons, List.length_nil]
    omega

/-- C9 witness: a one-cell store holding one reading is unchanged by the
consumption view. -/
theorem c9_witness :
    readRef (getFilteredReadingsHeap [[sampleHigh]] 0 .consumption none).1 0 =
      readRef [[sampleHigh]] 0 :=
  c9_no_mutation [[sampleHigh]] 0 .consumption none (by decide)

/-- Replaying against the store returns the same readings as the pure
`getFilteredReadings` on the dereferenced input (sanity link between the
heap model and the pure model). -/
theorem getFilteredReadingsHeap_snd (st : Store) (recentRef : Nat)
    (view : CardView) (tier : Option Tier) :
    (getFilteredReadingsHeap st recentRef view tier).2 =
      getFilteredReadings (readRef st recentRef) view tier := by
  have hlen : st.length < (st ++ [readRef st recentRef]).length := by
    simp
  cases view <;> cases tier <;>
    simp only [getFilteredReadingsHeap, allocRef, writeRef,
      getFilteredReadings, applyTierFilter]
  case date.none =>
    rw [readRef_set_self _ _ _ hlen, readRef_append_self]
  case date.some t =>
    rw [readRef_append_self, readRef_set_self _ _ _ hlen, readRef_append_self]
  case consumption.none =>
    rw [readRef_set_self _ _ _ hlen, readRef_append_self]
  case consumption.some t =>
    rw [readRef_append_self, readRef_set_self _ _ _ hlen, readRef_append_self]
  case anomalies.none =>
    rw [readRef_append_self, readRef_append_self]
  case anomalies.some t =>
    rw [readRef_append_self, readRef_append_self, readRef_append_self]

/-- The classification bands, as iff characterisations of each category. -/
theorem classify_eq_iff (x : ℚ) :
    (classify x = .highUsage ↔ 5 < x) ∧
    (classify x = .moderateUsage ↔ 2 ≤ x ∧ x ≤ 5) ∧
    (classify x = .lowUsage ↔ x < 2) := by
  unfold classify
  split_ifs with h1 h2
  · refine ⟨by simp [h1], ?_, ?_⟩
    · constructor
      · intro hc
        simp at hc
      · rintro ⟨_, hb⟩
        linarith
    · constructor
      · intro hc
        simp at hc
      · intro hc
        linarith
  · refine ⟨?_, by simp [h2], ?_⟩
    · constructor
      · intro hc
        simp at hc
      · intro hc
        exact absurd hc h1
    · constructor
      · intro hc
        simp at hc
      · intro hc
        rcases h2 with ⟨ha, _⟩
        linarith
  · have hx : x < 2 := by
      rcases lt_or_le x 2 with hlt | hge
      · exact hlt
      · exact absurd ⟨hge, not_lt.mp h1⟩ h2
    refine ⟨?_, ?_, by simp [hx]⟩
    · constructor
      · intro hc
        simp at hc
      · intro hc
        linarith
    · constructor
      · intro hc
        simp at hc
      · rintro ⟨ha, _⟩
        linarith

/-- The three tier filters split any list without loss or duplication. -/
theorem tier_filter_length (l : List Reading) :
    (l.filter (tierKeeps .high)).length + (l.filter (tierKeeps .medium)).length +
      (l.filter (tierKeeps .low)).length = l.length := by
  induction l with
  | nil => rfl
  | cons r t ih =>
      rcases lt_or_le 5 r.consumption_kwh with h | h
      · have e1 : tierKeeps .high r = true := by simp [tierKeeps, h]
        have e2 : tierKeeps .medium r = false := by
          simp only [tierKeeps, decide_eq_false_iff_not]
          rintro ⟨_, hb⟩
          linarith
        have e3 : tierKeeps .low r = false := by
          simp only [tierKeeps, decide_eq_false_iff_not, not_lt]
          linarith
        simp only [List.filter_cons, e1, e2, e3, if_true, if_false,
          Bool.false_eq_true, List.length_cons]
        omega
      · rcases le_or_lt 2 r.consumption_kwh with h2 | h2
        · have e1 : tierKeeps .high r = false := by
            simp only [tierKeeps, decide_eq_false_iff_not, not_lt]
            exact h
          have e2 : tierKeeps .medium r = true := by simp [tierKeeps, h2, h]
          have e3 : tierKeeps .low r = false := by
            simp only [tierKeeps, decide_eq_false_iff_not, not_lt]
            exact h2
          simp only [List.filter_cons, e1, e2, e3, if_true, if_false,
            Bool.false_eq_true, List.length_cons]
          omega
        · have e1 : tierKeeps .high r = false := by
            simp only [tierKeeps, decide_eq_false_iff_not, not_lt]
            linarith
          have e2 : tierKeeps .medium r = false := by
            simp only [tierKeeps, decide_eq_false_iff_not]
            rintro ⟨ha, _⟩
            linarith
          have e3 : tierKeeps .low r = true := by simp [tierKeeps, h2]
          simp only [List.filter_cons, e1, e2, e3, if_true, if_false,
            Bool.false_eq_true, List.length_cons]
          omega

/-- Every list element lands in exactly one tier filter. -/
theorem tier_membership (l : List Reading) (r : Reading) (hr : r ∈ l) :
    (r ∈ applyTierFilter (some .high) l ∧ r ∉ applyTierFilter (some .medium) l ∧
      r ∉ applyTierFilter (some .low) l) ∨
    (r ∉ applyTierFilter (some .high) l ∧ r ∈ applyTierFilter (some .medium) l ∧
      r ∉ applyTierFilter (some .low) l) ∨
    (r ∉ applyTierFilter (some .high) l ∧ r ∉ applyTierFilter (some .medium) l ∧
      r ∈ applyTierFilter (some .low) l) := by
  have hh : r ∈ applyTierFilter (some .high) l ↔ 5 < r.consumption_kwh := by
    simp [applyTierFilter, List.mem_filter, tierKeeps, hr]
  have hm : r ∈ applyTierFilter (some .medium) l ↔
      2 ≤ r.consumption_kwh ∧ r.consumption_kwh ≤ 5 := by
    simp [applyTierFilter, List.mem_filter, tierKeeps, hr]
  have hl : r ∈ applyTierFilter (some .low) l ↔ r.consumption_kwh < 2 := by
    simp [applyTierFilter, List.mem_filter, tierKeeps, hr]
  rcases lt_or_le 5 r.consumption_kwh with h | h
  · refine Or.inl ⟨hh.mpr h, ?_, ?_⟩
    · rw [hm]
      rintro ⟨_, hb⟩
      linarith
    · rw [hl]
      intro hc
      linarith
  · rcases le_or_lt 2 r.consumption_kwh with h2 | h2
    · refine Or.inr (Or.inl ⟨?_, hm.mpr ⟨h2, h⟩, ?_⟩)
      · rw [hh]
        intro hc
        linarith
      · rw [hl]
        intro hc
        linarith
    · refine Or.inr (Or.inr ⟨?_, ?_, hl.mpr h2⟩)
      · rw [hh]
        intro hc
        linarith
      · rw [hm]
        rintro ⟨ha, _⟩
        linarith

/-- C10: the three consumption tiers partition the value line and coincide
with the classify categories; on any list the three tier filters are
pairwise disjoint and jointly exhaustive, and their lengths add up. -/
theorem c10_tier_partition :
    (∀ x : ℚ,
      (classify x = .highUsage ↔ 5 < x) ∧
      (classify x = .moderateUsage ↔ 2 ≤ x ∧ x ≤ 5) ∧
      (classify x = .lowUsage ↔ x < 2)) ∧
    (∀ l : List Reading,
      (applyTierFilter (some .high) l).length +
        (applyTierFilter (some .medium) l).length +
        (applyTierFilter (some .low) l).length = l.length) ∧
    (∀ (l : List Reading), ∀ r ∈ l,
      (r ∈ applyTierFilter (some .high) l ∧ r ∉ applyTierFilter (some .medium) l ∧
        r ∉ applyTierFilter (some .low) l) ∨
      (r ∉ applyTierFilter (some .high) l ∧ r ∈ applyTierFilter (some .medium) l ∧
        r ∉ applyTierFilter (some .low) l) ∨
      (r ∉ applyTierFilter (some .high) l ∧ r ∉ applyTierFilter (some .medium) l ∧
        r ∈ applyTierFilter (some .low) l)) :=
  ⟨fun x => classify_eq_iff x, fun l => tier_filter_length l,
   fun l r hr => tier_membership l r hr⟩

/-- C10 witness: a 6 kWh reading lands in exactly the high tier of its
singleton list. -/
theorem c10_witness :
    (sampleHigh ∈ applyTierFilter (some .high) [sampleHigh] ∧
      sampleHigh ∉ applyTierFilter (some .medium) [sampleHigh] ∧
      sampleHigh ∉ applyTierFilter (some .low) [sampleHigh]) ∨
    (sampleHigh ∉ applyTierFilter (some .high) [sampleHigh] ∧
      sampleHigh ∈ applyTierFilter (some .medium) [sampleHigh] ∧
      sampleHigh ∉ applyTierFilter (some .low) [sampleHigh]) ∨
    (sampleHigh ∉ applyTierFilter (some .high) [sampleHigh] ∧
      sampleHigh ∉ applyTierFilter (some .medium) [sampleHigh] ∧
      sampleHigh ∈ applyTierFilter (some .low) [sampleHigh]) :=
  c10_tier_partition.2.2 [sampleHigh] sampleHigh (by decide)
